import Mathlib

/-!
Formal model of `src/main.ts` of `dismiss-all-approvals-js`: a GitHub
action that lists a pull request's reviews page by page, keeps the
approved ones, drops approvals tied to excluded commit shas, and
dismisses the rest — or, in dry-run mode, posts a single comment instead.

Modelling choices, all read off the source:
- action inputs are strings, where the empty string means "not supplied"
  (matching `core.getInput`, which yields the empty string for an absent
  input and throws on a required one);
- the `dry-run` flag is the boolean `core.getBooleanInput` yields;
- the trigger payload carries an optional pull request;
- the remote service is a function from page numbers to responses that
  may also throw; every outbound API call is recorded in a trace;
- a thrown JavaScript value is either an `Error` with a message, or a
  non-`Error` value (which `error instanceof Error` rejects);
- the unbounded pagination loop `for (let page = 1; ; ++page)` is given
  explicit fuel: result `none` stands for running out of fuel, and the
  termination theorems hold for every sufficient fuel, exhibiting the
  absence of any page cap.
-/

namespace DismissAllApprovals

/-- a review as `main.ts` consumes it: its numeric id, its `state`
string, and its nullable `commit_id`. -/
structure Review where
  id : Nat
  state : String
  commit_id : Option String
deriving DecidableEq

/-- one page of the `listReviews` response: the review data and the
optional `link` response header. -/
structure PageResponse where
  data : List Review
  link : Option String
deriving DecidableEq

/-- a thrown JavaScript value: an `Error` carrying its message, or any
other value, on which `error instanceof Error` is false. -/
inductive Throwable where
  | error (message : String)
  | other (value : String)
deriving DecidableEq

/-- an outbound call to the remote service, as recorded in the trace. -/
inductive ApiCall where
  | listReviews (pullNumber : Nat) (page : Nat)
  | createComment (issueNumber : Nat) (body : String)
  | dismissReview (pullNumber : Nat) (reviewId : Nat) (message : String)
deriving DecidableEq

deriving instance DecidableEq for Except

/-- the pull-request object of the trigger payload; only `number` is
used by the action. -/
structure PullRequest where
  number : Nat
deriving DecidableEq

/-- the ambient environment of one run: the action inputs (the empty
string meaning "not supplied"), the trigger payload, and the remote
service. -/
structure Env where
  githubToken : String
  reason : String
  excludingShas : String
  dryRun : Bool
  pullRequest : Option PullRequest
  server : Nat → Except Throwable PageResponse

/-- substring occurrence on character lists, the semantics of
JavaScript's `String.prototype.includes`. -/
def hasSubstring (pat : List Char) : List Char → Bool
  | [] => pat.isEmpty
  | c :: t => pat.isPrefixOf (c :: t) || hasSubstring pat t

/-- JavaScript `s.includes(pat)`. -/
def strIncludes (s pat : String) : Bool :=
  hasSubstring pat.data s.data

/-- the negated `break` guard of the pagination loop (line 80): the loop
continues exactly when the `link` header is present (truthy, hence also
non-empty) and contains the text `rel="next"`. -/
def hasNextLink : Option String → Bool
  | none => false
  | some l => (l != "") && strIncludes l "rel=\"next\""

/-- the contract of `core.getInput` with the required option: an absent
input is the empty string and raises an `Error` naming the input. -/
def getInputRequired (name val : String) : Except Throwable String :=
  if val = "" then
    Except.error (Throwable.error ("Input required and not supplied: " ++ name))
  else
    Except.ok val

/-- lines 43-50 of `main.ts`: the top-level catch converts an `Error`
into a failure message via `core.setFailed` and silently drops any
non-`Error` throwable. The result is the run's failure signal. -/
def handleCatch : Throwable → Option String
  | Throwable.error msg => some msg
  | Throwable.other _ => none

/-- lines 23-26: parse the optional `excluding-shas` input, splitting on
commas and trimming each entry; an unsupplied (empty, falsy) input
yields the empty list. -/
def parseExcludingShas (input : String) : List String :=
  if input != "" then (input.splitOn ",").map (fun sha => sha.trim) else []

/-- lines 28-35: the exclusion filter. With a non-empty exclusion list,
keep an approval when its `commit_id` is null or, short-circuiting
otherwise on the non-null value, when the list does not contain it. -/
def approvalsToProcess (approvals : List Review) (excludingShas : List String) :
    List Review :=
  if excludingShas.length > 0 then
    approvals.filter (fun approval =>
      match approval.commit_id with
      | none => true
      | some c => !(excludingShas.contains c))
  else approvals

/-- lines 55-86, `getPullRequestApprovals`: request `listReviews` page
by page starting at page 1, append the reviews whose state is APPROVED,
and stop as soon as the `link` header is absent or lacks a next
relation. Returns the issued calls and either the accumulated approvals
or the throwable a page request raised; `none` means the fuel ran out
(the source loop is unbounded). -/
def getPullRequestApprovals (server : Nat → Except Throwable PageResponse)
    (prNumber : Nat) :
    Nat → Nat → List Review → Option (List ApiCall × Except Throwable (List Review))
  | 0, _, _ => none
  | fuel + 1, page, approvals =>
    match server page with
    | Except.error e => some ([ApiCall.listReviews prNumber page], Except.error e)
    | Except.ok result =>
      let approvals2 :=
        approvals ++ result.data.filter (fun review => review.state == "APPROVED")
      if hasNextLink result.link then
        match getPullRequestApprovals server prNumber fuel (page + 1) approvals2 with
        | none => none
        | some (calls, res) => some (ApiCall.listReviews prNumber page :: calls, res)
      else
        some ([ApiCall.listReviews prNumber page], Except.ok approvals2)

/-- lines 88-124, `dismissApprovals`: a no-op on an empty id list, a
single dry-run comment when the dry-run flag is set, and otherwise one
dismissal per approval id carrying the reason. Returns the calls it
issues. -/
def dismissApprovals (approvalIds : List Nat) (prNumber : Nat) (dryRun : Bool)
    (reason : String) : List ApiCall :=
  if approvalIds.length = 0 then []
  else if dryRun then
    [ApiCall.createComment prNumber
      ("dismiss_stale_approvals dry run: Would have dismissed " ++
        toString approvalIds.length ++ " approvals with reason:\n\n" ++ reason)]
  else
    approvalIds.map (fun approvalId => ApiCall.dismissReview prNumber approvalId reason)

/-- lines 8-51, `run`: the whole orchestration. The result pairs the
trace of issued calls with the failure signal (`some message` exactly
when `core.setFailed` fired); the outer `none` means the pagination
fuel ran out. The required `reason` input is read where the source
reads it: in the argument list of `dismissApprovals`, after the
collection and the filtering. -/
def run (env : Env) (fuel : Nat) : Option (List ApiCall × Option String) :=
  match getInputRequired "github-token" env.githubToken with
  | Except.error e => some ([], handleCatch e)
  | Except.ok _token =>
    match env.pullRequest with
    | none =>
      some ([], handleCatch (Throwable.error
        "event context does not contain pull request data - ensure this action was triggered on a `pull_request` event"))
    | some pr =>
      match getPullRequestApprovals env.server pr.number fuel 1 [] with
      | none => none
      | some (calls, Except.error e) => some (calls, handleCatch e)
      | some (calls, Except.ok approvals) =>
        let excludingShas := parseExcludingShas env.excludingShas
        let toProcess := approvalsToProcess approvals excludingShas
        match getInputRequired "reason" env.reason with
        | Except.error e => some (calls, handleCatch e)
        | Except.ok reason =>
          some (calls ++
            dismissApprovals (toProcess.map (fun approval => approval.id))
              pr.number env.dryRun reason, none)

/-- the keep-predicate of the spec's Exclusion Filter, in the spec's own
words: keep an approval when the exclusion set is empty, or its commit
id is null, or its commit id is not a member of the exclusion set. -/
def keepApproval (excludingShas : List String) (approval : Review) : Bool :=
  decide (excludingShas = []) || decide (approval.commit_id = none) ||
    decide (∀ c ∈ excludingShas, approval.commit_id ≠ some c)

/-- recogniser for comment-creation calls in a trace. -/
def isCommentCall : ApiCall → Bool
  | ApiCall.createComment _ _ => true
  | _ => false

/-- recogniser for review-dismissal calls in a trace. -/
def isDismissCall : ApiCall → Bool
  | ApiCall.dismissReview _ _ _ => true
  | _ => false

/-- concrete two-page server data for the collector witnesses: page 1
advertises a next relation, page 2 does not. -/
def respW : Nat → PageResponse := fun i =>
  match i with
  | 1 => ⟨[⟨10, "APPROVED", some "sha1"⟩, ⟨11, "CHANGES_REQUESTED", none⟩],
      some "<https://x.test?page=2>; rel=\"next\""⟩
  | _ => ⟨[⟨12, "APPROVED", none⟩], none⟩

/-- the witness server never throws and serves `respW`. -/
def serverW : Nat → Except Throwable PageResponse := fun i => Except.ok (respW i)

theorem collect_spec (server : Nat → Except Throwable PageResponse)
    (resp : Nat → PageResponse) (prn N : Nat)
    (hok : ∀ i, 1 ≤ i → i ≤ N → server i = Except.ok (resp i))
    (hnext : ∀ i, 1 ≤ i → i < N → hasNextLink (resp i).link = true)
    (hlast : hasNextLink (resp N).link = false) :
    ∀ m p acc fuel, 1 ≤ p → p + m = N → m < fuel →
      getPullRequestApprovals server prn fuel p acc =
        some ((List.range' p (m + 1)).map (ApiCall.listReviews prn),
          Except.ok (acc ++ (List.range' p (m + 1)).flatMap
            (fun i => (resp i).data.filter (fun review => review.state == "APPROVED")))) := by
  intro m
  induction m with
  | zero =>
    intro p acc fuel hp hpN hf
    obtain ⟨f, rfl⟩ : ∃ f, fuel = f + 1 := ⟨fuel - 1, by omega⟩
    have hpN2 : p = N := by omega
    subst hpN2
    simp only [getPullRequestApprovals, hok p hp (by omega)]
    simp [hlast, List.range'_one]
  | succ m ih =>
    intro p acc fuel hp hpN hf
    obtain ⟨f, rfl⟩ : ∃ f, fuel = f + 1 := ⟨fuel - 1, by omega⟩
    have hnextp : hasNextLink (resp p).link = true := hnext p hp (by omega)
    have hrec := ih (p + 1)
      (acc ++ (resp p).data.filter (fun review => review.state == "APPROVED")) f
      (by omega) (by omega) (by omega)
    simp only [getPullRequestApprovals, hok p hp (by omega), hnextp, if_true, hrec]
    simp [List.range'_succ, List.append_assoc]

/-- Claim C1: given N pages of which pages 1 through N-1 advertise a
next relation and page N does not, the collector issues exactly the N
ListReviews requests for pages 1, 2, ..., N and stops there, for every
sufficient fuel — the termination is driven only by the link header,
with no maximum-page cap. -/
theorem pagination_exact_n_requests (server : Nat → Except Throwable PageResponse)
    (resp : Nat → PageResponse) (prn N fuel : Nat)
    (hN : 1 ≤ N)
    (hok : ∀ i, 1 ≤ i → i ≤ N → server i = Except.ok (resp i))
    (hnext : ∀ i, 1 ≤ i → i < N → hasNextLink (resp i).link = true)
    (hlast : hasNextLink (resp N).link = false)
    (hfuel : N ≤ fuel) :
    ∃ approvals,
      getPullRequestApprovals server prn fuel 1 [] =
        some ((List.range' 1 N).map (ApiCall.listReviews prn), Except.ok approvals) := by
  have h := collect_spec server resp prn N hok hnext hlast (N - 1) 1 [] fuel
    (by omega) (by omega) (by omega)
  rw [show N - 1 + 1 = N from by omega] at h
  exact ⟨_, h⟩

/-- Claim C1 witness: a concrete two-page sequence yields exactly the
requests for pages 1 and 2. -/
theorem pagination_exact_n_requests_witness :
    ∃ approvals,
      getPullRequestApprovals serverW 7 3 1 [] =
        some ((List.range' 1 2).map (ApiCall.listReviews 7), Except.ok approvals) :=
  pagination_exact_n_requests serverW respW 7 2 3 (by decide)
    (fun i _ _ => rfl)
    (fun i h1 h2 => by
      have hi : i = 1 := by omega
      subst hi
      decide)
    (by decide) (by decide)

/-- Claim C5: under the same N-page shape, the collector returns exactly
the reviews whose state is APPROVED, concatenated across pages in page
order with each page's own order preserved — reviews in any other state
never enter the result. -/
theorem collector_keeps_exactly_approved (server : Nat → Except Throwable PageResponse)
    (resp : Nat → PageResponse) (prn N fuel : Nat)
    (hN : 1 ≤ N)
    (hok : ∀ i, 1 ≤ i → i ≤ N → server i = Except.ok (resp i))
    (hnext : ∀ i, 1 ≤ i → i < N → hasNextLink (resp i).link = true)
    (hlast : hasNextLink (resp N).link = false)
    (hfuel : N ≤ fuel) :
    getPullRequestApprovals server prn fuel 1 [] =
      some ((List.range' 1 N).map (ApiCall.listReviews prn),
        Except.ok ((List.range' 1 N).flatMap
          (fun i => (resp i).data.filter (fun review => review.state == "APPROVED")))) := by
  have h := collect_spec server resp prn N hok hnext hlast (N - 1) 1 [] fuel
    (by omega) (by omega) (by omega)
  rw [show N - 1 + 1 = N from by omega] at h
  simpa using h

/-- Claim C5 witness: on the concrete two-page sequence the collector
returns the two APPROVED reviews and drops the CHANGES_REQUESTED one. -/
theorem collector_keeps_exactly_approved_witness :
    getPullRequestApprovals serverW 7 3 1 [] =
      some ([ApiCall.listReviews 7 1, ApiCall.listReviews 7 2],
        Except.ok [⟨10, "APPROVED", some "sha1"⟩, ⟨12, "APPROVED", none⟩]) :=
  (collector_keeps_exactly_approved serverW respW 7 2 3 (by decide)
    (fun i _ _ => rfl)
    (fun i h1 h2 => by
      have hi : i = 1 := by omega
      subst hi
      decide)
    (by decide) (by decide)).trans (by decide)

/-- Claim C2: the exclusion filter is exactly the order-preserving
filter of the approval sequence by the spec's keep-predicate — keep when
the exclusion set is empty, or the commit id is null, or the commit id
is not a member of the exclusion set. In particular the result is a
subsequence of the input, and an approval with a null commit id is
never removed, whatever the exclusion set is. -/
theorem exclusion_filter_eq_spec_filter (A : List Review) (E : List String) :
    approvalsToProcess A E = A.filter (keepApproval E) ∧
    (approvalsToProcess A E).Sublist A ∧
    ∀ a ∈ A, a.commit_id = none → a ∈ approvalsToProcess A E := by
  have hfilter : approvalsToProcess A E = A.filter (keepApproval E) := by
    by_cases hE : E = []
    · subst hE
      have h1 : approvalsToProcess A [] = A := by simp [approvalsToProcess]
      have h2 : A.filter (keepApproval []) = A :=
        List.filter_eq_self.mpr (fun a _ => by simp [keepApproval])
      rw [h1, h2]
    · have hlen : E.length > 0 := List.length_pos.mpr hE
      simp only [approvalsToProcess, if_pos hlen]
      apply List.filter_congr
      intro a _
      cases h : a.commit_id with
      | none => simp [keepApproval, h]
      | some c =>
        by_cases hc : c ∈ E
        · have h1 : decide (c ∈ E) = true := decide_eq_true hc
          have h2 : decide (∀ x ∈ E, ¬ c = x) = false := by
            simp only [decide_eq_false_iff_not]
            push_neg
            exact ⟨c, hc, rfl⟩
          simp [keepApproval, h, hE, h1, h2]
        · have h1 : decide (c ∈ E) = false := decide_eq_false hc
          have h2 : decide (∀ x ∈ E, ¬ c = x) = true := by
            simp only [decide_eq_true_eq]
            intro x hx hcx
            exact hc (hcx ▸ hx)
          simp [keepApproval, h, hE, h1, h2]
  refine ⟨hfilter, ?_, ?_⟩
  · rw [hfilter]
    exact List.filter_sublist A
  · intro a ha hnone
    rw [hfilter]
    exact List.mem_filter.mpr ⟨ha, by simp [keepApproval, hnone]⟩

/-- Claim C3: with a non-empty id list and the dry-run flag set, the
executor issues exactly one comment-creation call on the pull request,
whose body is the dry-run sentence stating the count of approvals that
would have been dismissed and the reason text, and no dismissal call. -/
theorem dry_run_single_comment (ids : List Nat) (prn : Nat) (reason : String)
    (h : ids ≠ []) :
    dismissApprovals ids prn true reason =
      [ApiCall.createComment prn
        ("dismiss_stale_approvals dry run: Would have dismissed " ++
          toString ids.length ++ " approvals with reason:\n\n" ++ reason)] ∧
    List.countP isCommentCall (dismissApprovals ids prn true reason) = 1 ∧
    List.countP isDismissCall (dismissApprovals ids prn true reason) = 0 := by
  have hlen : ¬ ids.length = 0 := by simpa [List.length_eq_zero] using h
  refine ⟨by simp [dismissApprovals, hlen], ?_, ?_⟩
  · simp [dismissApprovals, hlen, List.countP_cons, isCommentCall]
  · simp [dismissApprovals, hlen, List.countP_cons, isDismissCall]

/-- Claim C3 witness: two approvals in dry-run mode produce the single
comment announcing the count 2, and no dismissal. -/
theorem dry_run_single_comment_witness :
    ([1, 2] : List Nat) ≠ [] ∧
    dismissApprovals [1, 2] 7 true "stale" =
      [ApiCall.createComment 7
        "dismiss_stale_approvals dry run: Would have dismissed 2 approvals with reason:\n\nstale"] ∧
    List.countP isDismissCall (dismissApprovals [1, 2] 7 true "stale") = 0 := by
  have h := dry_run_single_comment [1, 2] 7 "stale" (by decide)
  exact ⟨by decide, h.1.trans (by decide), h.2.2⟩

/-- Claim C4: with a non-empty id list and the dry-run flag false, the
executor issues exactly one dismissal call per approval id, in the
list's order, each carrying the configured reason as its message, and no
comment-creation call. -/
theorem live_mode_one_dismissal_per_id (ids : List Nat) (prn : Nat) (reason : String)
    (h : ids ≠ []) :
    dismissApprovals ids prn false reason =
      ids.map (fun approvalId => ApiCall.dismissReview prn approvalId reason) ∧
    List.countP isCommentCall (dismissApprovals ids prn false reason) = 0 := by
  have hlen : ¬ ids.length = 0 := by simpa [List.length_eq_zero] using h
  refine ⟨by simp [dismissApprovals, hlen], ?_⟩
  rw [show dismissApprovals ids prn false reason =
      ids.map (fun approvalId => ApiCall.dismissReview prn approvalId reason) from
    by simp [dismissApprovals, hlen]]
  rw [List.countP_eq_zero]
  intro a ha
  obtain ⟨i, _, rfl⟩ := List.mem_map.mp ha
  simp [isCommentCall]

/-- Claim C4 witness: two approvals in live mode produce exactly the two
dismissal calls carrying the reason, and no comment. -/
theorem live_mode_one_dismissal_per_id_witness :
    ([1, 2] : List Nat) ≠ [] ∧
    dismissApprovals [1, 2] 7 false "stale" =
      [ApiCall.dismissReview 7 1 "stale", ApiCall.dismissReview 7 2 "stale"] ∧
    List.countP isCommentCall (dismissApprovals [1, 2] 7 false "stale") = 0 := by
  have h := live_mode_one_dismissal_per_id [1, 2] 7 "stale" (by decide)
  exact ⟨by decide, h.1.trans (by decide), h.2⟩

/-- environment with no github-token input and no pull request in the
payload. -/
def envNoToken : Env :=
  ⟨"", "some reason", "", false, none, fun _ => Except.ok ⟨[], none⟩⟩

/-- environment with inputs present but no pull request in the payload. -/
def envNoPr : Env :=
  ⟨"tok", "some reason", "", false, none, fun _ => Except.ok ⟨[], none⟩⟩

/-- environment with a pull request and a one-page server but no reason
input. -/
def envNoReason : Env :=
  ⟨"tok", "", "", false, some ⟨5⟩, fun _ => Except.ok ⟨[], none⟩⟩

/-- environment whose single page holds no review at all, so the final
approval list is empty. -/
def envEmptyFinal : Env :=
  ⟨"tok", "some reason", "", false, some ⟨7⟩, fun _ => Except.ok ⟨[], none⟩⟩

/-- environment whose server throws a non-Error value on every page. -/
def envThrowOther : Env :=
  ⟨"tok", "some reason", "", false, some ⟨9⟩,
    fun _ => Except.error (Throwable.other "oops")⟩

/-- Claim C10: when the github-token input is absent the run fails with
the missing-required-input error even when the payload also lacks a
pull request — the credential read precedes the pull-request check. -/
theorem token_error_precedes_context_error (env : Env) (fuel : Nat)
    (htok : env.githubToken = "") (hpr : env.pullRequest = none) :
    run env fuel = some ([], some "Input required and not supplied: github-token") := by
  simp [run, getInputRequired, htok, handleCatch]

/-- Claim C10 witness: the concrete token-less, pull-request-less
environment fails with the token message. -/
theorem token_error_precedes_context_error_witness :
    run envNoToken 3 = some ([], some "Input required and not supplied: github-token") :=
  token_error_precedes_context_error envNoToken 3 rfl rfl

/-- Claim C7 counterexample: a run whose payload has no pull request but
whose github-token input is also absent fails with the token message,
which does not mention pull requests at all — so not every such run
fails with the instructing message the claim demands. -/
theorem missing_pr_counterexample :
    envNoToken.pullRequest = none ∧
    run envNoToken 1 = some ([], some "Input required and not supplied: github-token") ∧
    strIncludes "Input required and not supplied: github-token" "pull" = false := by
  exact ⟨rfl, by decide, by decide⟩

/-- Claim C7 as amended: when the github-token input is present and the
payload carries no pull request, the run fails before any network call
(the trace is empty) with the message instructing that the trigger must
be a pull_request event. -/
theorem missing_pr_fails_before_network (env : Env) (fuel : Nat)
    (htok : env.githubToken ≠ "") (hpr : env.pullRequest = none) :
    run env fuel =
      some ([], some "event context does not contain pull request data - ensure this action was triggered on a `pull_request` event") ∧
    strIncludes
      "event context does not contain pull request data - ensure this action was triggered on a `pull_request` event"
      "pull_request" = true := by
  constructor
  · simp [run, getInputRequired, htok, hpr, handleCatch]
  · decide

/-- Claim C7 witness: the concrete pull-request-less environment with a
token fails before any call, with the instructing message. -/
theorem missing_pr_fails_before_network_witness :
    run envNoPr 3 =
      some ([], some "event context does not contain pull request data - ensure this action was triggered on a `pull_request` event") ∧
    strIncludes
      "event context does not contain pull request data - ensure this action was triggered on a `pull_request` event"
      "pull_request" = true :=
  missing_pr_fails_before_network envNoPr 3 (by decide) rfl

/-- Claim C6 counterexample: with the reason input absent but the token
and pull request present, the run does fail with the
missing-required-input error, yet its trace already contains a
ListReviews call — the Collector ran before the required reason input
was read, contradicting the claimed Loader-before-Collector ordering. -/
theorem missing_reason_counterexample :
    envNoReason.reason = "" ∧
    run envNoReason 1 =
      some ([ApiCall.listReviews 5 1], some "Input required and not supplied: reason") ∧
    ([ApiCall.listReviews 5 1] : List ApiCall) ≠ [] := by
  exact ⟨rfl, by decide, by decide⟩

/-- Claim C6 as amended: when the reason input is absent the run fails
with the missing-required-input error, but only after the Approval
Collector has issued all its page requests: the reason is read after
collection (and filtering), so the failing run's trace holds the N
ListReviews calls, at least one. Only the credential is read before the
Collector runs. -/
theorem missing_reason_fails_after_collection (env : Env)
    (resp : Nat → PageResponse) (pr : PullRequest) (N fuel : Nat)
    (htok : env.githubToken ≠ "")
    (hpr : env.pullRequest = some pr)
    (hreason : env.reason = "")
    (hN : 1 ≤ N)
    (hok : ∀ i, 1 ≤ i → i ≤ N → env.server i = Except.ok (resp i))
    (hnext : ∀ i, 1 ≤ i → i < N → hasNextLink (resp i).link = true)
    (hlast : hasNextLink (resp N).link = false)
    (hfuel : N ≤ fuel) :
    run env fuel =
      some ((List.range' 1 N).map (ApiCall.listReviews pr.number),
        some "Input required and not supplied: reason") ∧
    (List.range' 1 N).map (ApiCall.listReviews pr.number) ≠ [] := by
  have hc := collect_spec env.server resp pr.number N hok hnext hlast (N - 1) 1 [] fuel
    (by omega) (by omega) (by omega)
  rw [show N - 1 + 1 = N from by omega] at hc
  constructor
  · simp [run, getInputRequired, htok, hpr, hc, hreason, handleCatch]
  · simp only [ne_eq, List.map_eq_nil_iff, List.range'_eq_nil]
    omega

/-- Claim C6 witness: the concrete environment with the reason absent
and a one-page server fails with the reason error after one request. -/
theorem missing_reason_fails_after_collection_witness :
    run envNoReason 1 =
      some ((List.range' 1 1).map (ApiCall.listReviews 5),
        some "Input required and not supplied: reason") ∧
    (List.range' 1 1).map (ApiCall.listReviews 5) ≠ [] :=
  missing_reason_fails_after_collection envNoReason (fun _ => ⟨[], none⟩) ⟨5⟩ 1 1
    (by decide) rfl rfl (by decide)
    (fun i _ _ => rfl)
    (fun i h1 h2 => absurd h2 (by omega))
    (by decide) (by decide)

/-- Claim C8: a run whose post-filter approval id list is empty issues
no executor call of any kind — its trace is exactly the collector's page
requests — and succeeds with no failure signal. -/
theorem empty_final_list_no_network (env : Env) (fuel : Nat) (pr : PullRequest)
    (calls : List ApiCall) (approvals : List Review)
    (htok : env.githubToken ≠ "")
    (hpr : env.pullRequest = some pr)
    (hcollect : getPullRequestApprovals env.server pr.number fuel 1 [] =
      some (calls, Except.ok approvals))
    (hreason : env.reason ≠ "")
    (hempty : List.map (fun approval => approval.id)
      (approvalsToProcess approvals (parseExcludingShas env.excludingShas)) = []) :
    run env fuel = some (calls, none) := by
  simp [run, getInputRequired, htok, hpr, hcollect, hreason, hempty, dismissApprovals]

/-- Claim C8 witness: a run over one empty page dismisses nothing, adds
no executor call and succeeds. -/
theorem empty_final_list_no_network_witness :
    run envEmptyFinal 1 = some ([ApiCall.listReviews 7 1], none) :=
  empty_final_list_no_network envEmptyFinal 1 ⟨7⟩ [ApiCall.listReviews 7 1] []
    (by decide) rfl (by decide) (by decide) rfl

/-- Claim C9: a non-Error throwable is dropped by the top-level catch:
the handler yields no failure message, and a run whose first page
request throws such a value completes with no failure signal at all. -/
theorem non_error_throwable_not_reported (env : Env) (fuel : Nat) (pr : PullRequest)
    (v : String)
    (htok : env.githubToken ≠ "")
    (hpr : env.pullRequest = some pr)
    (hthrow : env.server 1 = Except.error (Throwable.other v))
    (hfuel : 1 ≤ fuel) :
    handleCatch (Throwable.other v) = none ∧
    run env fuel = some ([ApiCall.listReviews pr.number 1], none) := by
  refine ⟨rfl, ?_⟩
  obtain ⟨f, rfl⟩ : ∃ f, fuel = f + 1 := ⟨fuel - 1, by omega⟩
  have hcol : getPullRequestApprovals env.server pr.number (f + 1) 1 [] =
      some ([ApiCall.listReviews pr.number 1], Except.error (Throwable.other v)) := by
    simp only [getPullRequestApprovals, hthrow]
  simp [run, getInputRequired, htok, hpr, hcol, handleCatch]

/-- Claim C9 witness: the concrete run whose server throws the plain
string value completes without any failure signal. -/
theorem non_error_throwable_not_reported_witness :
    handleCatch (Throwable.other "oops") = none ∧
    run envThrowOther 1 = some ([ApiCall.listReviews 9 1], none) :=
  non_error_throwable_not_reported envThrowOther 1 ⟨9⟩ "oops" (by decide) rfl rfl
    (by decide)
